import Mathlib

/-!
Verification development for the twasm repository (a TypeScript-to-browser
transpile-and-inject engine built on an external parser/transform/printer
library).  The definitions below are a shallow embedding of:

* `src/src/lib.rs` — `keyid::new`, `transpile`, `main`, the `Error` enum and
  the host-environment (DOM) injection sequence;
* `src/examples/example1.rs` — the example `transpile` and the module-format
  transform (`fold_module` of the UMD pass), whose full source is vendored
  (commented out) at `src/examples/example1.rs` lines 130-929.

Machine integers are modelled as `Nat` with explicit `% 2 ^ 64` where the
`AtomicU64` counter can wrap.  Emitted JavaScript text is modelled as a list
of bytes (`List Nat`), matching the `Vec<u8>` output buffer and the
byte-indexed slice `&output[7..]` in `transpile`.  A Rust panic (the byte
slice failing its bounds/char-boundary precondition) is modelled as `none`.
-/

namespace Twasm

/-! ### Bytes and strings

`asciiBytes` gives the UTF-8 bytes of an ASCII string (for the ASCII literals
appearing in the code, the UTF-8 encoding is the list of code points). -/

def asciiBytes (s : String) : List Nat :=
  s.data.map Char.toNat

/-- A UTF-8 continuation byte, `0x80 ≤ b < 0xC0`. -/
def isContinuationByte (b : Nat) : Bool :=
  decide (128 ≤ b) && decide (b < 192)

/-- Rust `str::is_char_boundary i` (for `0 < i`): the index equals the length,
or the byte at the index is not a continuation byte. -/
def isCharBoundaryAt (bs : List Nat) (i : Nat) : Bool :=
  i == bs.length ||
    (match bs.get? i with
     | some b => !(isContinuationByte b)
     | none => false)

/-- The byte slice `&output[7..]` at `src/src/lib.rs:130`.  Rust panics when
index 7 is out of bounds or not a character boundary; the panic is `none`. -/
def byteSlice7 (bs : List Nat) : Option (List Nat) :=
  match isCharBoundaryAt bs 7 with
  | true => some (bs.drop 7)
  | false => none

/-- The text built by `format!("define({}, {}", keyid, &output[7..])` at
`src/src/lib.rs:130` (the format string has no closing parenthesis: the
trimmed output keeps the original one). -/
def defineWrap (keyid : Nat) (trimmed : List Nat) : List Nat :=
  asciiBytes "define(" ++ asciiBytes (Nat.repr keyid) ++ asciiBytes ", " ++ trimmed

/-! ### The load-key counter (`mod keyid`, `src/src/lib.rs:52-56`) -/

/-- The width boundary of the `AtomicU64` counter. -/
def W64 : Nat := 2 ^ 64

/-- `keyid::new`: `KEYID.fetch_add(1, Ordering::SeqCst)` — returns the stored
value and stores its wrapping successor.  The stored value is Nat-reduced
modulo the u64 width. -/
def keyidNew (k : Nat) : Nat × Nat :=
  (k % W64, (k + 1) % W64)

/-- Counter value after `n` calls to `keyid::new`, starting from the
process-start value 0. -/
def counterAfter : Nat → Nat
  | 0 => 0
  | n + 1 => (keyidNew (counterAfter n)).2

/-- The key returned by call number `n` (0-based) to `keyid::new`. -/
def keyAt (n : Nat) : Nat :=
  (keyidNew (counterAfter n)).1

/-! ### Filename-derived configuration (`src/src/lib.rs:80-93`) -/

def startsWithChars : List Char → List Char → Bool
  | [], _ => true
  | _ :: _, [] => false
  | p :: ps, c :: cs => p == c && startsWithChars ps cs

def containsChars : List Char → List Char → Bool
  | [], pat => pat.isEmpty
  | c :: cs, pat => startsWithChars pat (c :: cs) || containsChars cs pat

def endsWithChars (pat l : List Char) : Bool :=
  startsWithChars pat.reverse l.reverse

/-- The filename-dependent part of the `TsConfig` handed to the lexer:
`dts: filename.ends_with(".d.ts")`, `tsx: filename.contains("tsx")`
(`src/src/lib.rs:82-83`, identically `src/examples/example1.rs:44-45`). -/
structure TsSyntaxConfig where
  dts : Bool
  tsx : Bool
deriving DecidableEq

def tsConfigOf (filename : String) : TsSyntaxConfig :=
  { dts := endsWithChars ".d.ts".data filename.data,
    tsx := containsChars filename.data "tsx".data }

/-- Keep identifier-shaped characters, replace the rest by an underscore. -/
def sanitizeChar (c : Char) : Char :=
  if c.isAlphanum || c == '_' then c else '_'

/-- Characters before the last dot (the whole list when there is no dot). -/
def stripExtChars (l : List Char) : List Char :=
  match l.reverse.dropWhile (fun c => !(c == '.')) with
  | [] => l
  | _ :: tail => tail.reverse

/-- Characters after the last path separator. -/
def lastComponentChars (l : List Char) : List Char :=
  (l.reverse.takeWhile (fun c => !(c == '/'))).reverse

/-- Modelled from the spec: the loader's global-object export name is
"derived from the filename by stripping its extension and sanitizing to a
valid identifier-like string" (`determine_export_name` lives in the external
transform library; only its call site is in this repository, at
`src/examples/example1.rs:808`). -/
def exportNameOf (filename : String) : String :=
  String.mk ((stripExtChars filename.data).map sanitizeChar)

/-- Identifier-like stem of an import specifier (for example `"./test"`
yields `"test"`). -/
def identOfSrc (src : String) : String :=
  String.mk ((stripExtChars (lastComponentChars src.data)).map sanitizeChar)

/-- Modelled from the spec: `local_name_for_src` of the external transform
library — the synthesized factory parameter name for an unnamed import
(the example output shows `function(_test)` for `"./test"`). -/
def localNameForSrc (src : String) : String :=
  "_" ++ identOfSrc src

/-- Modelled from the spec: `config.global_name` of the external transform
library — the property looked up on the global object in the global-script
branch (the example output shows `global.test` for `"./test"`). -/
def globalNameOf (src : String) : String :=
  identOfSrc src

/-! ### JavaScript AST (the fragment the transform output uses) -/

mutual
inductive JsExpr where
  | ident (name : String)
  | str (value : String)
  | boolLit (value : Bool)
  | thisE
  | paren (inner : JsExpr)
  | typeofE (arg : JsExpr)
  | binop (op : String) (lhs rhs : JsExpr)
  | member (obj : JsExpr) (prop : String)
  | assign (lhs rhs : JsExpr)
  | call (callee : JsExpr) (args : List JsExpr)
  | fnExpr (params : List String) (body : List JsStmt)
  | arrayLit (elems : List JsExpr)
  | objectLit (props : List (String × JsExpr))

inductive JsStmt where
  | exprStmt (e : JsExpr)
  | varDecl (name : String) (init : Option JsExpr)
  | block (stmts : List JsStmt)
  | ifStmt (test : JsExpr) (cons : JsStmt) (alt : Option JsStmt)
end

/-- A transformed (pure JavaScript) module: an ordered list of statements. -/
structure Module where
  body : List JsStmt

/-- A parsed, type-erased module item (`swc_ecma_ast::ModuleItem`), at the
granularity the module transform's classification loop distinguishes
(`src/examples/example1.rs:217-548`). -/
inductive ModuleItem where
  | stmt (s : JsStmt)
  | importDecl (src : String) (localBinding : Option String)
  | exportDecl (s : JsStmt)
  | exportDefaultExpr (e : JsExpr)
  | exportNamed (names : List String) (src : Option String)
  | exportAll (src : String)

/-! ### The module transform's scope bookkeeping -/

/-- Modelled from the spec: `Scope::insert_import` of the external transform
library (called at `src/examples/example1.rs:227`) — "One record per distinct
imported module source; multiple named imports from the same source collapse
onto one record"; "distinct import specifiers are deduplicated by exact
string equality of the module source text", first-seen order. -/
def insertImport (imports : List (String × Option String)) (src : String)
    (localBinding : Option String) : List (String × Option String) :=
  if src ∈ imports.map Prod.fst then imports else imports ++ [(src, localBinding)]

/-- Accumulation state of the single classification pass over top-level
items (the local mutable state of `fold_module`,
`src/examples/example1.rs:203-214`). -/
structure FoldState where
  imports : List (String × Option String)
  hasExport : Bool
  stmts : List JsStmt
  extraStmts : List JsStmt
  exportAlls : List String

def initFoldState : FoldState :=
  { imports := [], hasExport := false, stmts := [], extraStmts := [], exportAlls := [] }

def exportsMember (name : String) : JsExpr :=
  JsExpr.member (JsExpr.ident "exports") name

def exportAssign (name : String) (rhs : JsExpr) : JsStmt :=
  JsStmt.exprStmt (JsExpr.assign (exportsMember name) rhs)

/-- The export-assignment statements a directly exported declaration adds
after itself (`exports.<name> = <name>;`).  Only the single-name `var` shape
is distinguished here; the finer per-kind routing (classes versus functions,
destructuring patterns) is not needed by any claim below. -/
def exportAssignsOf : JsStmt → List JsStmt
  | JsStmt.varDecl n _ => [exportAssign n (JsExpr.ident n)]
  | _ => []

/-- One step of the classification loop over top-level items
(`src/examples/example1.rs:217-548`).  Imports are registered and emit no
statement; exports set `has_export` and push lowered statements; plain
statements go to the body buffer.  The intra-statement identifier rewriting
(`Scope::fold_expr`) is identity at this granularity: no claim below depends
on it. -/
def classifyItem (st : FoldState) : ModuleItem → FoldState
  | ModuleItem.stmt s =>
      { st with extraStmts := st.extraStmts ++ [s] }
  | ModuleItem.importDecl src lb =>
      { st with imports := insertImport st.imports src lb }
  | ModuleItem.exportDecl s =>
      { st with hasExport := true,
                extraStmts := st.extraStmts ++ [s] ++ exportAssignsOf s }
  | ModuleItem.exportDefaultExpr e =>
      { st with hasExport := true,
                extraStmts := st.extraStmts ++
                  [JsStmt.varDecl "_default" (some e),
                   exportAssign "default" (JsExpr.ident "_default")] }
  | ModuleItem.exportNamed names none =>
      { st with hasExport := true,
                extraStmts := st.extraStmts ++
                  names.map (fun n => exportAssign n (JsExpr.ident n)) }
  | ModuleItem.exportNamed names (some src) =>
      { st with hasExport := true,
                imports := insertImport st.imports src none,
                extraStmts := st.extraStmts ++
                  names.map (fun n =>
                    exportAssign n (JsExpr.member (JsExpr.ident (localNameForSrc src)) n)) }
  | ModuleItem.exportAll src =>
      { st with hasExport := true, exportAlls := st.exportAlls ++ [src] }

def moduleScope (items : List ModuleItem) : FoldState :=
  items.foldl classifyItem initFoldState

/-- The import specifiers in registration order: one occurrence per `import`
declaration and per `export ... from "src"` re-export, in item order (the
order in which the classification loop calls `insert_import` /
`import_to_export`). -/
def importSources : List ModuleItem → List String
  | [] => []
  | ModuleItem.importDecl src _ :: rest => src :: importSources rest
  | ModuleItem.exportNamed _ (some src) :: rest => src :: importSources rest
  | _ :: rest => importSources rest

/-! ### Dependency-array and factory synthesis
(`src/examples/example1.rs:556-575` and `631-651`) -/

/-- The `define` dependency array: `"exports"` first when any export exists,
then one slot per registered import record, in order. -/
def depsOf (items : List ModuleItem) : List String :=
  (if (moduleScope items).hasExport then ["exports"] else [])
    ++ (moduleScope items).imports.map Prod.fst

def factoryParamsOf (items : List ModuleItem) : List String :=
  (if (moduleScope items).hasExport then ["exports"] else [])
    ++ (moduleScope items).imports.map (fun p => p.2.getD (localNameForSrc p.1))

def requireCall (src : String) : JsExpr :=
  JsExpr.call (JsExpr.ident "require") [JsExpr.str src]

def factoryArgsOf (items : List ModuleItem) : List JsExpr :=
  (if (moduleScope items).hasExport then [JsExpr.ident "exports"] else [])
    ++ (moduleScope items).imports.map (fun p => requireCall p.1)

def globalFactoryArgsOf (items : List ModuleItem) : List JsExpr :=
  (if (moduleScope items).hasExport
   then [JsExpr.member (JsExpr.ident "mod") "exports"] else [])
    ++ (moduleScope items).imports.map
        (fun p => JsExpr.member (JsExpr.ident "global") (globalNameOf p.1))

def useStrictStmt : JsStmt :=
  JsStmt.exprStmt (JsExpr.str "use strict")

/-- Simplified form of `define_es_module`: the `exports.__esModule = true`
marker emitted once when the module has any export. -/
def esModuleMarkerStmt : JsStmt :=
  exportAssign "__esModule" (JsExpr.boolLit true)

/-- Modelled from the spec: `export * from "src"` "is lowered to a runtime
copy loop" against the required module's namespace (`handle_export_all` is in
the external transform library; called at `src/examples/example1.rs:620`). -/
def exportAllStmt (src : String) : JsStmt :=
  JsStmt.exprStmt (JsExpr.call (JsExpr.ident "_exportStar")
    [requireCall src, JsExpr.ident "exports"])

/-- The factory function body: `"use strict"` first (default strict mode),
the prelude buffer, then the body buffer. -/
def factoryBodyOf (items : List ModuleItem) : List JsStmt :=
  [useStrictStmt]
    ++ (if (moduleScope items).hasExport then [esModuleMarkerStmt] else [])
    ++ (moduleScope items).stmts
    ++ (moduleScope items).exportAlls.map exportAllStmt
    ++ (moduleScope items).extraStmts

/-- `typeof define === "function" && define.amd`
(`src/examples/example1.rs:717-726`). -/
def amdIsTest : JsExpr :=
  JsExpr.binop "&&"
    (JsExpr.binop "===" (JsExpr.typeofE (JsExpr.ident "define")) (JsExpr.str "function"))
    (JsExpr.member (JsExpr.ident "define") "amd")

/-- `typeof exports !== "undefined"` (`src/examples/example1.rs:728-735`). -/
def commonJsTest : JsExpr :=
  JsExpr.binop "!==" (JsExpr.typeofE (JsExpr.ident "exports")) (JsExpr.str "undefined")

/-- The `helper_fn` of the UMD pass (`src/examples/example1.rs:697-829`):
`function(global, factory)` dispatching among AMD `define`, CommonJS
`factory(require(..))`, and the global-script fallback. -/
def umdHelperFn (deps : List String) (cjsArgs globArgs : List JsExpr)
    (exportName : String) : JsExpr :=
  JsExpr.fnExpr ["global", "factory"]
    [JsStmt.ifStmt amdIsTest
      (JsStmt.block [JsStmt.exprStmt (JsExpr.call (JsExpr.ident "define")
        [JsExpr.arrayLit (deps.map JsExpr.str), JsExpr.ident "factory"])])
      (some (JsStmt.ifStmt commonJsTest
        (JsStmt.block [JsStmt.exprStmt (JsExpr.call (JsExpr.ident "factory") cjsArgs)])
        (some (JsStmt.block
          [JsStmt.varDecl "mod"
             (some (JsExpr.objectLit [("exports", JsExpr.objectLit [])])),
           JsStmt.exprStmt (JsExpr.call (JsExpr.ident "factory") globArgs),
           JsStmt.exprStmt (JsExpr.assign
             (JsExpr.member (JsExpr.ident "global") exportName)
             (JsExpr.member (JsExpr.ident "mod") "exports"))]))))]

/-- The UMD `fold_module` output (`src/examples/example1.rs:850-865`): a
module whose body is the single statement
`(helper_fn)(this, function(<params>) { ... });`. -/
def umdFoldModule (items : List ModuleItem) (exportName : String) : Module :=
  { body := [JsStmt.exprStmt (JsExpr.call
      (JsExpr.paren (umdHelperFn (depsOf items) (factoryArgsOf items)
        (globalFactoryArgsOf items) exportName))
      [JsExpr.thisE, JsExpr.fnExpr (factoryParamsOf items) (factoryBodyOf items)])] }

/-- Modelled from the spec: the AMD-only module pass of the external
transform library, the one actually invoked by the library's `transpile`
(`src/src/lib.rs:106`; the spec's design notes call it "a plain AMD-only
wrapper").  It emits a single `define([deps], factory)` call, whose printed
form begins with the 7-byte prefix `define(` relied upon by the byte slice
at `src/src/lib.rs:130`. -/
def amdFoldModule (items : List ModuleItem) : Module :=
  { body := [JsStmt.exprStmt (JsExpr.call (JsExpr.ident "define")
      [JsExpr.arrayLit ((depsOf items).map JsExpr.str),
       JsExpr.fnExpr (factoryParamsOf items) (factoryBodyOf items)])] }

/-- The spec's output contract, written from the spec's words (section 6
shape) for refinement comparison: exactly one top-level expression
statement — a call to a parenthesized `function(global, factory)` expression
that dispatches among the three loading strategies, invoked with `this` and
a factory function expression. -/
def isUmdWrapperModule (m : Module) : Prop :=
  ∃ (deps : List String) (cjsArgs globArgs : List JsExpr) (exportName : String)
    (factoryParams : List String) (factoryBody : List JsStmt),
    m.body = [JsStmt.exprStmt (JsExpr.call
      (JsExpr.paren (JsExpr.fnExpr ["global", "factory"]
        [JsStmt.ifStmt
          (JsExpr.binop "&&"
            (JsExpr.binop "===" (JsExpr.typeofE (JsExpr.ident "define"))
              (JsExpr.str "function"))
            (JsExpr.member (JsExpr.ident "define") "amd"))
          (JsStmt.block [JsStmt.exprStmt (JsExpr.call (JsExpr.ident "define")
            [JsExpr.arrayLit (List.map JsExpr.str deps), JsExpr.ident "factory"])])
          (some (JsStmt.ifStmt
            (JsExpr.binop "!==" (JsExpr.typeofE (JsExpr.ident "exports"))
              (JsExpr.str "undefined"))
            (JsStmt.block [JsStmt.exprStmt (JsExpr.call (JsExpr.ident "factory") cjsArgs)])
            (some (JsStmt.block
              [JsStmt.varDecl "mod"
                 (some (JsExpr.objectLit [("exports", JsExpr.objectLit [])])),
               JsStmt.exprStmt (JsExpr.call (JsExpr.ident "factory") globArgs),
               JsStmt.exprStmt (JsExpr.assign
                 (JsExpr.member (JsExpr.ident "global") exportName)
                 (JsExpr.member (JsExpr.ident "mod") "exports"))]))))]))
      [JsExpr.thisE, JsExpr.fnExpr factoryParams factoryBody])]

/-! ### Errors (`src/src/lib.rs:34-48`) -/

inductive TErr where
  | JSError (message : String)
  | ECMAParseError (message : String)
  | IOError (message : String)
  | PoisonError (message : String)
  | DiagnosticEmitted
  | InvalidWindow
  | InvalidDocument
  | InvalidHead
deriving DecidableEq

/-- `format!("{:?}", e)` on the derived `Debug` of `Error`
(`src/src/lib.rs:140`). -/
def errDebug : TErr → String
  | TErr.JSError m => "JSError(" ++ m ++ ")"
  | TErr.ECMAParseError m => "ECMAParseError(" ++ m ++ ")"
  | TErr.IOError m => "IOError(" ++ m ++ ")"
  | TErr.PoisonError m => "PoisonError(" ++ m ++ ")"
  | TErr.DiagnosticEmitted => "DiagnosticEmitted"
  | TErr.InvalidWindow => "InvalidWindow"
  | TErr.InvalidDocument => "InvalidDocument"
  | TErr.InvalidHead => "InvalidHead"

/-! ### The external front-end, printer and host environment -/

/-- The components the engine calls but does not contain: the syntax
front-end (`parse_typescript_module`, returning `none` on a parse error), the
type-erasure pass (`strip()`), and the printer (`emit_module` writing to the
byte buffer; writing to a freshly created in-memory `Vec` behind a lock owned
by this single-threaded invocation cannot fail, so emission is total). -/
structure Frontend where
  parse : TsSyntaxConfig → String → Option (List ModuleItem)
  strip : List ModuleItem → List ModuleItem
  emit : Module → List Nat

/-- Availability of the DOM pieces `transpile` touches
(`src/src/lib.rs:126-131`): `web_sys::window()`, `window.document()`,
`document.head()`, `document.create_element("script")`,
`head.append_child(..)`. -/
structure HostEnv where
  hasWindow : Bool
  hasDocument : Bool
  hasHead : Bool
  createElementOk : Bool
  appendChildOk : Bool

/-- The injection tail of `transpile` (`src/src/lib.rs:126-133`), after the
key id has been taken: each missing DOM piece returns its error; the byte
slice on the emitted output is taken after the element is created and the
slice panic is `none`; the script text reaches the document only when
`append_child` succeeds.  Returns (result, text appended to the document). -/
def hostInject (env : HostEnv) (kid : Nat) (out : List Nat) :
    Option (Except TErr Nat) × Option (List Nat) :=
  if env.hasWindow then
    if env.hasDocument then
      if env.hasHead then
        if env.createElementOk then
          match byteSlice7 out with
          | none => (none, none)
          | some trimmed =>
            if env.appendChildOk then
              (some (Except.ok kid), some (defineWrap kid trimmed))
            else (some (Except.error (TErr.JSError "append_child failed")), none)
        else (some (Except.error (TErr.JSError "create_element failed")), none)
      else (some (Except.error TErr.InvalidHead), none)
    else (some (Except.error TErr.InvalidDocument), none)
  else (some (Except.error TErr.InvalidWindow), none)

/-- Observable outcome of one `transpile` invocation: the returned value
(`none` models a panic), the counter after the call, the text injected into
the document (if any), and the emitted pre-wrap output (if emission was
reached). -/
structure TranspileRun where
  result : Option (Except TErr Nat)
  counter : Nat
  injected : Option (List Nat)
  emitted : Option (List Nat)

/-- `transpile` of `src/src/lib.rs:70-135`: a fresh `Globals`/source-map per
invocation (no transform state survives the call), parse with the
filename-derived syntax config, strip types, apply the AMD module pass, emit,
take a key id from the shared counter, then inject.  A parse failure returns
`Error::DiagnosticEmitted` before the key id is taken. -/
def transpileModel (fe : Frontend) (env : HostEnv) (filename input : String)
    (c : Nat) : TranspileRun :=
  match fe.parse (tsConfigOf filename) input with
  | none =>
      { result := some (Except.error TErr.DiagnosticEmitted),
        counter := c, injected := none, emitted := none }
  | some items =>
      let out := fe.emit (amdFoldModule (fe.strip items))
      let step := hostInject env (keyidNew c).1 out
      { result := step.1, counter := (keyidNew c).2,
        injected := step.2, emitted := some out }

/-- The example's `transpile` (`src/examples/example1.rs:32-87`): same parse
and strip, the UMD module pass instead of AMD, and the emitted text is
returned directly (no key, no DOM). -/
def exampleTranspile (fe : Frontend) (filename input : String) :
    Except TErr (List Nat) :=
  match fe.parse (tsConfigOf filename) input with
  | none => Except.error TErr.DiagnosticEmitted
  | some items =>
      Except.ok (fe.emit (umdFoldModule (fe.strip items) (exportNameOf filename)))

def toJsResult : Except TErr Nat → Except String Nat
  | Except.ok k => Except.ok k
  | Except.error e => Except.error (errDebug e)

/-- `main` of `src/src/lib.rs:137-143`: wraps `transpile`, mapping the error
to its debug string and the key to the JS return value. -/
def mainModel (fe : Frontend) (env : HostEnv) (filename input : String)
    (c : Nat) : Option (Except String Nat) × Nat :=
  let r := transpileModel fe env filename input c
  (r.result.map toJsResult, r.counter)

/-! ### First-seen deduplication, stated recursively -/

/-- One registration step on the list of import-specifier keys. -/
def insertKey (acc : List String) (s : String) : List String :=
  if s ∈ acc then acc else acc ++ [s]

/-- First-seen deduplication of a list: keep the head, drop its later
occurrences, recurse. -/
def firstSeen : List String → List String
  | [] => []
  | s :: rest => s :: (firstSeen rest).filter (fun t => decide (t ≠ s))

/-! ### Concrete fixtures for witnesses and counterexamples -/

def constEmitBytes : List Nat := asciiBytes "define();"

/-- A front-end whose parse always succeeds with an empty module and whose
printer emits a fixed AMD-shaped text. -/
def okFrontend : Frontend :=
  { parse := fun _ _ => some [],
    strip := fun items => items,
    emit := fun _ => constEmitBytes }

/-- A front-end whose parse always fails. -/
def parseFailFrontend : Frontend :=
  { parse := fun _ _ => none,
    strip := fun items => items,
    emit := fun _ => constEmitBytes }

/-- A front-end whose parse outcome depends on the `tsx` syntax flag — the
defining behavior of the real front-end, which lexes `tsx`-named files as JSX
(`src/src/lib.rs:83`). -/
def tsxFrontend : Frontend :=
  { parse := fun cfg _ => if cfg.tsx then none else some [],
    strip := fun items => items,
    emit := fun _ => constEmitBytes }

def fullEnv : HostEnv :=
  { hasWindow := true, hasDocument := true, hasHead := true,
    createElementOk := true, appendChildOk := true }

def noWindowEnv : HostEnv :=
  { fullEnv with hasWindow := false }

/-- A module that both exports and imports the literal specifier
`"exports"`. -/
def exportsCollisionItems : List ModuleItem :=
  [ModuleItem.exportDefaultExpr (JsExpr.str "v"),
   ModuleItem.importDecl "exports" none]

/-- A module importing the same specifier twice (once through a named
import, once through a re-export) plus a second specifier. -/
def dedupWitnessItems : List ModuleItem :=
  [ModuleItem.importDecl "./m" (some "_m"),
   ModuleItem.exportNamed ["f"] (some "./m"),
   ModuleItem.importDecl "./n" none]

/-! ## Helper lemmas -/

theorem byteSlice7_eq_some {bs t : List Nat} (h : byteSlice7 bs = some t) :
    t = bs.drop 7 := by
  unfold byteSlice7 at h
  cases hb : isCharBoundaryAt bs 7 <;> rw [hb] at h
  · exact Option.noConfusion h
  · exact (Option.some.inj h).symm

theorem boundary_le_length {bs : List Nat} {i : Nat}
    (h : isCharBoundaryAt bs i = true) : i ≤ bs.length := by
  unfold isCharBoundaryAt at h
  cases hg : bs.get? i with
  | none =>
      rw [hg] at h
      simp only [Bool.or_false, beq_iff_eq] at h
      exact Nat.le_of_eq h
  | some b =>
      have hlt : i < bs.length := by
        by_contra hc
        push_neg at hc
        rw [List.get?_eq_none.mpr hc] at hg
        exact Option.noConfusion hg
      exact Nat.le_of_lt hlt

theorem byteSlice7_isSome_iff (bs : List Nat) :
    (byteSlice7 bs).isSome = true ↔ (7 ≤ bs.length ∧ isCharBoundaryAt bs 7 = true) := by
  unfold byteSlice7
  cases hb : isCharBoundaryAt bs 7 with
  | false => simp
  | true => simpa using boundary_le_length hb

theorem byteSlice7_of_define_prefixed (rest : List Nat)
    (hrest : rest = [] ∨ ∃ b bs, rest = b :: bs ∧ isContinuationByte b = false) :
    byteSlice7 (asciiBytes "define(" ++ rest) = some rest := by
  have hlen : (asciiBytes "define(").length = 7 := by decide
  have hb : isCharBoundaryAt (asciiBytes "define(" ++ rest) 7 = true := by
    rcases hrest with h | ⟨b, bs, hbs, hcont⟩
    · subst h
      unfold isCharBoundaryAt
      simp [hlen]
    · subst hbs
      unfold isCharBoundaryAt
      have hg : (asciiBytes "define(" ++ (b :: bs)).get? 7 = some b := by
        rw [show asciiBytes "define(" = [100, 101, 102, 105, 110, 101, 40] from by decide]
        rfl
      rw [hg]
      simp [hcont]
  unfold byteSlice7
  rw [hb]
  rw [List.drop_left' hlen]

theorem boundary_constEmitBytes : isCharBoundaryAt constEmitBytes 7 = true := by decide

theorem hostInject_result_ne_none {env : HostEnv} {kid : Nat} {out : List Nat}
    (h : byteSlice7 out ≠ none) : (hostInject env kid out).1 ≠ none := by
  rcases hbs : byteSlice7 out with _ | t
  · exact absurd hbs h
  · unfold hostInject
    rw [hbs]
    split_ifs <;> simp

theorem hostInject_ok {env : HostEnv} {kid : Nat} {out : List Nat} {k : Nat}
    (h : (hostInject env kid out).1 = some (Except.ok k)) :
    k = kid ∧ (hostInject env kid out).2 = some (defineWrap kid (out.drop 7)) := by
  unfold hostInject at h ⊢
  rcases hbs : byteSlice7 out with _ | t
  · split_ifs at h ⊢ <;> simp_all
  · have ht : t = out.drop 7 := byteSlice7_eq_some hbs
    subst ht
    split_ifs at h ⊢ <;> simp_all

theorem hostInject_error_not_injected {env : HostEnv} {kid : Nat} {out : List Nat}
    {e : TErr} (h : (hostInject env kid out).1 = some (Except.error e)) :
    (hostInject env kid out).2 = none := by
  unfold hostInject at h ⊢
  rcases hbs : byteSlice7 out with _ | t
  · split_ifs at h ⊢ <;> simp_all
  · split_ifs at h ⊢ <;> simp_all

theorem transpileModel_parse_some (fe : Frontend) (env : HostEnv)
    (filename input : String) (c : Nat) (items : List ModuleItem)
    (hp : fe.parse (tsConfigOf filename) input = some items) :
    (transpileModel fe env filename input c).result
        = (hostInject env (keyidNew c).1 (fe.emit (amdFoldModule (fe.strip items)))).1
    ∧ (transpileModel fe env filename input c).injected
        = (hostInject env (keyidNew c).1 (fe.emit (amdFoldModule (fe.strip items)))).2
    ∧ (transpileModel fe env filename input c).emitted
        = some (fe.emit (amdFoldModule (fe.strip items))) := by
  unfold transpileModel
  rw [hp]
  exact ⟨rfl, rfl, rfl⟩

theorem toJsResult_ok {x : Except TErr Nat} {k : Nat}
    (h : toJsResult x = Except.ok k) : x = Except.ok k := by
  cases x with
  | ok a => simpa [toJsResult] using h
  | error e => simp [toJsResult] at h

theorem toJsResult_error {x : Except TErr Nat} {s : String}
    (h : toJsResult x = Except.error s) : ∃ e, x = Except.error e := by
  cases x with
  | ok a => simp [toJsResult] at h
  | error e => exact ⟨e, rfl⟩

theorem counterAfter_eq (n : Nat) : counterAfter n = n % W64 := by
  induction n with
  | zero => simp [counterAfter]
  | succ n ih =>
      unfold counterAfter keyidNew
      rw [ih]
      conv_rhs => rw [Nat.add_mod]
      rw [Nat.mod_eq_of_lt (show 1 < W64 by norm_num [W64])]

theorem keyAt_eq (n : Nat) : keyAt n = n % W64 := by
  unfold keyAt keyidNew
  rw [counterAfter_eq]
  exact Nat.mod_mod_of_dvd n dvd_rfl

theorem map_fst_insertImport (l : List (String × Option String)) (src : String)
    (lb : Option String) :
    (insertImport l src lb).map Prod.fst = insertKey (l.map Prod.fst) src := by
  unfold insertImport insertKey
  split_ifs <;> simp

theorem scope_imports_keys (items : List ModuleItem) : ∀ st : FoldState,
    ((items.foldl classifyItem st).imports).map Prod.fst
      = List.foldl insertKey (st.imports.map Prod.fst) (importSources items) := by
  induction items with
  | nil => intro st; rfl
  | cons item rest ih =>
      intro st
      rw [List.foldl_cons, ih]
      cases item with
      | stmt s => rfl
      | importDecl src lb =>
          simp only [classifyItem]
          rw [map_fst_insertImport]
          rfl
      | exportDecl s => rfl
      | exportDefaultExpr e => rfl
      | exportNamed names srcOpt =>
          cases srcOpt with
          | none => rfl
          | some src =>
              simp only [classifyItem]
              rw [map_fst_insertImport]
              rfl
      | exportAll src => rfl

theorem firstSeen_cons (s : String) (rest : List String) :
    firstSeen (s :: rest) = s :: (firstSeen rest).filter (fun t => decide (t ≠ s)) := rfl

theorem foldl_insertKey (l : List String) : ∀ acc : List String,
    List.foldl insertKey acc l
      = acc ++ (firstSeen l).filter (fun t => decide (t ∉ acc)) := by
  induction l with
  | nil => intro acc; simp [firstSeen]
  | cons s rest ih =>
      intro acc
      rw [List.foldl_cons, firstSeen_cons, List.filter_cons]
      by_cases hs : s ∈ acc
      · rw [if_neg (by simp [hs]),
          show insertKey acc s = acc from by simp [insertKey, hs], ih acc]
        congr 1
        rw [List.filter_filter]
        apply List.filter_congr
        intro t _
        by_cases h : t = s
        · subst h; simp [hs]
        · simp [h]
      · rw [if_pos (by simp [hs]),
          show insertKey acc s = acc ++ [s] from by simp [insertKey, hs], ih (acc ++ [s])]
        rw [List.append_assoc]
        congr 1
        rw [List.singleton_append]
        congr 1
        rw [List.filter_filter]
        apply List.filter_congr
        intro t _
        by_cases h : t = s
        · subst h; simp [List.mem_append]
        · simp [h, List.mem_append]

theorem firstSeen_nodup (l : List String) : (firstSeen l).Nodup := by
  induction l with
  | nil => simp [firstSeen]
  | cons s rest ih =>
      unfold firstSeen
      refine List.nodup_cons.mpr ⟨?_, ih.filter _⟩
      intro hmem
      rcases List.mem_filter.mp hmem with ⟨_, hdec⟩
      simp at hdec

theorem mem_firstSeen (a : String) (l : List String) : a ∈ firstSeen l ↔ a ∈ l := by
  induction l with
  | nil => simp [firstSeen]
  | cons s rest ih =>
      unfold firstSeen
      by_cases h : a = s
      · subst h; simp
      · simp [h, List.mem_filter, ih]

theorem moduleScope_keys_firstSeen (items : List ModuleItem) :
    (moduleScope items).imports.map Prod.fst = firstSeen (importSources items) := by
  unfold moduleScope
  rw [scope_imports_keys]
  show List.foldl insertKey [] (importSources items) = _
  rw [foldl_insertKey]
  simp

/-! ## Claims -/

/-- Claim C1 (amended): the UMD transform used by the example
(`src/examples/example1.rs`) produces, for every classified module and export
name, a module consisting of exactly one top-level expression statement — a
call to a parenthesized `function(global, factory)` expression dispatching at
runtime among the three loading strategies, invoked with `this` and a factory
function expression.  The library's `transpile` (`src/src/lib.rs:106`)
instead applies the AMD transform, whose output is a single
`define(dependencies, factory)` call. -/
theorem c1_wrapper_shape_amended :
    (∀ (items : List ModuleItem) (exportName : String),
        isUmdWrapperModule (umdFoldModule items exportName))
    ∧ (∀ items : List ModuleItem,
        ∃ (factoryParams : List String) (factoryBody : List JsStmt),
        (amdFoldModule items).body
          = [JsStmt.exprStmt (JsExpr.call (JsExpr.ident "define")
              [JsExpr.arrayLit (List.map JsExpr.str (depsOf items)),
               JsExpr.fnExpr factoryParams factoryBody])]) := by
  constructor
  · intro items exportName
    exact ⟨depsOf items, factoryArgsOf items, globalFactoryArgsOf items, exportName,
      factoryParamsOf items, factoryBodyOf items, rfl⟩
  · intro items
    exact ⟨factoryParamsOf items, factoryBodyOf items, rfl⟩

/-- Claim C1, counterexample to the claim as stated: the transform actually
applied by the library's `transpile` (the AMD pass) does not produce the
parenthesized `(global, factory)` three-branch wrapper, already for the empty
module. -/
theorem c1_counterexample : ¬ isUmdWrapperModule (amdFoldModule []) := by
  rintro ⟨deps, cjsArgs, globArgs, exportName, fparams, fbody, h⟩
  simp [amdFoldModule] at h

/-- Claim C2: on every successful `transpile` invocation, the injected
script text is `"define(" ++ key ++ ", " ++ (emitted output with its 7-byte
prefix trimmed)`, and the key returned is the key embedded in that text
(the one taken from the atomic counter). -/
theorem c2_injected_define_wrap (fe : Frontend) (env : HostEnv)
    (filename input : String) (c k : Nat)
    (h : (transpileModel fe env filename input c).result = some (Except.ok k)) :
    (transpileModel fe env filename input c).injected
      = ((transpileModel fe env filename input c).emitted).map
          (fun out => defineWrap k (out.drop 7))
    ∧ k = (keyidNew c).1 := by
  cases hp : fe.parse (tsConfigOf filename) input with
  | none =>
      have hres : (transpileModel fe env filename input c).result
          = some (Except.error TErr.DiagnosticEmitted) := by
        unfold transpileModel; rw [hp]
      rw [hres] at h
      simp at h
  | some items =>
      obtain ⟨hres, hinj, hemit⟩ :=
        transpileModel_parse_some fe env filename input c items hp
      rw [hres] at h
      obtain ⟨hk, hstep⟩ := hostInject_ok h
      refine ⟨?_, hk⟩
      rw [hinj, hstep, hemit, hk]
      rfl

/-- Claim C2 witness at a concrete invocation. -/
theorem c2_witness :
    (transpileModel okFrontend fullEnv "a.ts" "x" 0).injected
      = ((transpileModel okFrontend fullEnv "a.ts" "x" 0).emitted).map
          (fun out => defineWrap 0 (out.drop 7))
    ∧ 0 = (keyidNew 0).1 :=
  c2_injected_define_wrap okFrontend fullEnv "a.ts" "x" 0 0 rfl

/-- Claim C3 (amended): `keyid::new` is fetch-and-increment — it returns the
stored counter value and stores its successor modulo the u64 width; starting
from 0, the returned keys are pairwise distinct and strictly increasing for
call sequences that stay below the `2 ^ 64` wrap boundary. -/
theorem c3_counter_monotone_amended :
    (∀ k, k < W64 → keyidNew k = (k, (k + 1) % W64))
    ∧ keyAt 0 = 0
    ∧ (∀ m n, m < n → n < W64 → keyAt m < keyAt n) := by
  refine ⟨?_, rfl, ?_⟩
  · intro k hk
    unfold keyidNew
    rw [Nat.mod_eq_of_lt hk]
  · intro m n hmn hn
    rw [keyAt_eq, keyAt_eq, Nat.mod_eq_of_lt hn, Nat.mod_eq_of_lt (lt_trans hmn hn)]
    exact hmn

/-- Claim C3 witness: keys of calls 3 and 5 are strictly ordered. -/
theorem c3_witness : keyAt 3 < keyAt 5 :=
  c3_counter_monotone_amended.2.2 3 5 (by norm_num) (by norm_num [W64])

/-- Claim C3, counterexample to the claim as stated: the `AtomicU64` counter
wraps, so call number `2 ^ 64` returns the same key as call number 0 — the
keys of an arbitrary call sequence are not pairwise distinct. -/
theorem c3_counterexample : keyAt W64 = keyAt 0 ∧ W64 ≠ 0 := by
  constructor
  · rw [keyAt_eq, keyAt_eq, Nat.mod_self, Nat.zero_mod]
  · norm_num [W64]

/-- Claim C4: when the front-end parse fails, `transpile` returns
`Error::DiagnosticEmitted`, the load-key counter is untouched, and nothing
is injected into the document. -/
theorem c4_parse_failure_aborts (fe : Frontend) (env : HostEnv)
    (filename input : String) (c : Nat)
    (hp : fe.parse (tsConfigOf filename) input = none) :
    (transpileModel fe env filename input c).result
        = some (Except.error TErr.DiagnosticEmitted)
    ∧ (transpileModel fe env filename input c).counter = c
    ∧ (transpileModel fe env filename input c).injected = none := by
  unfold transpileModel
  rw [hp]
  exact ⟨rfl, rfl, rfl⟩

/-- Claim C4 witness at a concrete failing parse. -/
theorem c4_witness :
    (transpileModel parseFailFrontend fullEnv "a.ts" "x" 5).result
        = some (Except.error TErr.DiagnosticEmitted)
    ∧ (transpileModel parseFailFrontend fullEnv "a.ts" "x" 5).counter = 5
    ∧ (transpileModel parseFailFrontend fullEnv "a.ts" "x" 5).injected = none :=
  c4_parse_failure_aborts parseFailFrontend fullEnv "a.ts" "x" 5 rfl

/-- Claim C5: under the emitter's output contract (its output has a character
boundary at byte 7, as the `define(`-prefixed AMD output does), `main` always
returns a result — never the panic value — and the contract is all-or-nothing:
a key is returned exactly when the script was injected, and an error is never
accompanied by an injected script. -/
theorem c5_no_panic_all_or_nothing (fe : Frontend) (env : HostEnv)
    (filename input : String) (c : Nat)
    (hem : ∀ m : Module, isCharBoundaryAt (fe.emit m) 7 = true) :
    (mainModel fe env filename input c).1 ≠ none
    ∧ (∀ k, (mainModel fe env filename input c).1 = some (Except.ok k) →
        (transpileModel fe env filename input c).injected ≠ none)
    ∧ (∀ s, (mainModel fe env filename input c).1 = some (Except.error s) →
        (transpileModel fe env filename input c).injected = none) := by
  have hfst : (mainModel fe env filename input c).1
      = ((transpileModel fe env filename input c).result).map toJsResult := rfl
  cases hp : fe.parse (tsConfigOf filename) input with
  | none =>
      have hres : (transpileModel fe env filename input c).result
          = some (Except.error TErr.DiagnosticEmitted) := by
        unfold transpileModel; rw [hp]
      have hinj : (transpileModel fe env filename input c).injected = none := by
        unfold transpileModel; rw [hp]
      refine ⟨?_, ?_, ?_⟩
      · rw [hfst, hres]; simp
      · intro k hk
        rw [hfst, hres] at hk
        simp [toJsResult] at hk
      · intro s _
        exact hinj
  | some items =>
      obtain ⟨hres, hinj, _⟩ :=
        transpileModel_parse_some fe env filename input c items hp
      have hbs : byteSlice7 (fe.emit (amdFoldModule (fe.strip items))) ≠ none := by
        unfold byteSlice7
        rw [hem (amdFoldModule (fe.strip items))]
        simp
      refine ⟨?_, ?_, ?_⟩
      · rw [hfst, hres]
        intro hcon
        rw [Option.map_eq_none'] at hcon
        exact hostInject_result_ne_none hbs hcon
      · intro k hk
        rw [hfst, hres] at hk
        rcases ho : (hostInject env (keyidNew c).1
            (fe.emit (amdFoldModule (fe.strip items)))).1 with _ | x
        · rw [ho] at hk; simp at hk
        · rw [ho] at hk
          simp only [Option.map_some'] at hk
          have hx : x = Except.ok k := toJsResult_ok (Option.some.inj hk)
          rw [hx] at ho
          obtain ⟨_, hstep⟩ := hostInject_ok ho
          rw [hinj, hstep]
          simp
      · intro s hs
        rw [hfst, hres] at hs
        rcases ho : (hostInject env (keyidNew c).1
            (fe.emit (amdFoldModule (fe.strip items)))).1 with _ | x
        · rw [ho] at hs; simp at hs
        · rw [ho] at hs
          simp only [Option.map_some'] at hs
          obtain ⟨e, hx⟩ := toJsResult_error (Option.some.inj hs)
          rw [hx] at ho
          rw [hinj]
          exact hostInject_error_not_injected ho

/-- Claim C5 witness: with a conforming emitter and a full host environment,
a concrete invocation does not panic. -/
theorem c5_witness : (mainModel okFrontend fullEnv "a.ts" "x" 0).1 ≠ none :=
  (c5_no_panic_all_or_nothing okFrontend fullEnv "a.ts" "x" 0
    (fun _ => boundary_constEmitBytes)).1

/-- Claim C6 (amended): for a fixed source text, the filename influences the
output through exactly two channels — the loader's global-object export name
and the parser syntax configuration (the `dts`/`tsx` flags of
`src/src/lib.rs:82-83`).  Filenames agreeing on both produce identical
results, for the library pipeline and for the example (UMD) pipeline. -/
theorem c6_filename_influence_amended (fe : Frontend) (env : HostEnv)
    (input : String) (c : Nat) (f1 f2 : String)
    (hcfg : tsConfigOf f1 = tsConfigOf f2)
    (hname : exportNameOf f1 = exportNameOf f2) :
    transpileModel fe env f1 input c = transpileModel fe env f2 input c
    ∧ exampleTranspile fe f1 input = exampleTranspile fe f2 input := by
  constructor
  · unfold transpileModel; rw [hcfg]
  · unfold exampleTranspile; rw [hcfg, hname]

/-- Claim C6 witness: two distinct filenames with equal export name and equal
syntax configuration produce identical results. -/
theorem c6_witness :
    transpileModel okFrontend fullEnv "a.ts" "x" 0
        = transpileModel okFrontend fullEnv "a.txt" "x" 0
    ∧ exampleTranspile okFrontend "a.ts" "x" = exampleTranspile okFrontend "a.txt" "x" :=
  c6_filename_influence_amended okFrontend fullEnv "x" 0 "a.ts" "a.txt"
    (by decide) (by decide)

/-- Claim C6, counterexample to the claim as stated: `"a.ts"` and `"a.tsx"`
yield the same export name, yet the filename also selects the parser's `tsx`
mode (`src/src/lib.rs:83`), so a front-end that parses differently under the
`tsx` flag — the defining behavior of the real one — produces different
outputs for the same source text. -/
theorem c6_counterexample :
    exportNameOf "a.ts" = exportNameOf "a.tsx"
    ∧ exampleTranspile tsxFrontend "a.ts" "x" = Except.ok constEmitBytes
    ∧ exampleTranspile tsxFrontend "a.tsx" "x" = Except.error TErr.DiagnosticEmitted
    ∧ (Except.ok constEmitBytes ≠ (Except.error TErr.DiagnosticEmitted : Except TErr (List Nat))) := by
  refine ⟨by decide, rfl, rfl, ?_⟩
  intro h
  exact Except.noConfusion h

/-- Claim C7 (amended): the synthesized dependency list is the `"exports"`
slot (present exactly when the module has an export) followed by the
registered import specifiers, which contain each distinct specifier exactly
once in first-seen order; provided the module does not both export and import
the literal specifier `"exports"`, every import specifier occurs in the full
dependency list exactly once. -/
theorem c7_dependency_uniqueness_amended (items : List ModuleItem)
    (h : ¬((moduleScope items).hasExport = true ∧ "exports" ∈ importSources items)) :
    (moduleScope items).imports.map Prod.fst = firstSeen (importSources items)
    ∧ (firstSeen (importSources items)).Nodup
    ∧ (∀ s, s ∈ importSources items → (depsOf items).count s = 1) := by
  refine ⟨moduleScope_keys_firstSeen items, firstSeen_nodup _, ?_⟩
  intro s hmem
  have h1 : (firstSeen (importSources items)).count s = 1 :=
    List.count_eq_one_of_mem (firstSeen_nodup _) ((mem_firstSeen s _).mpr hmem)
  unfold depsOf
  rw [moduleScope_keys_firstSeen items]
  cases hex : (moduleScope items).hasExport with
  | false => simpa using h1
  | true =>
      have hs : s ≠ "exports" := by
        rintro rfl
        exact h ⟨hex, hmem⟩
      rw [if_pos rfl]
      rw [List.count_append, List.count_cons_of_ne hs, List.count_nil, h1]

/-- Claim C7 witness: a duplicate import of `"./m"` shares one slot; the
dependency list counts it once. -/
theorem c7_witness : (depsOf dedupWitnessItems).count "./m" = 1 :=
  (c7_dependency_uniqueness_amended dedupWitnessItems (by decide)).2.2 "./m" (by decide)

/-- Claim C7, counterexample to the claim as stated: a module that exports
and also imports the literal specifier `"exports"` gets a dependency list in
which that import specifier occurs twice (the prepended exports slot collides
with it). -/
theorem c7_counterexample :
    "exports" ∈ importSources exportsCollisionItems
    ∧ (depsOf exportsCollisionItems).count "exports" = 2 := by
  constructor <;> decide

/-- Claim C8: the transform retains no state across invocations — the
emitted pre-wrap output of `transpile` is independent of the process-wide
counter state (the only cross-invocation state), and is the deterministic
pure function parse-strip-transform-emit of the filename and input alone. -/
theorem c8_deterministic_output (fe : Frontend) (env : HostEnv)
    (filename input : String) (c1 c2 : Nat) :
    (transpileModel fe env filename input c1).emitted
      = (transpileModel fe env filename input c2).emitted
    ∧ (∀ items, fe.parse (tsConfigOf filename) input = some items →
        (transpileModel fe env filename input c1).emitted
          = some (fe.emit (amdFoldModule (fe.strip items)))) := by
  unfold transpileModel
  cases h : fe.parse (tsConfigOf filename) input with
  | none => simp
  | some items =>
      refine ⟨rfl, ?_⟩
      intro its hits
      rw [Option.some.inj hits]

/-- Claim C8 witness: two invocations at different counter states emit the
same text. -/
theorem c8_witness :
    (transpileModel okFrontend fullEnv "a.ts" "x" 3).emitted
      = (transpileModel okFrontend fullEnv "a.ts" "x" 7).emitted :=
  (c8_deterministic_output okFrontend fullEnv "a.ts" "x" 3 7).1

/-- Claim C9: the byte slice `&output[7..]` is well-defined exactly when the
emitted output is at least 7 bytes long with a character boundary at byte 7;
an output beginning with the 7-byte ASCII prefix `define(` satisfies the
precondition, and the slice removes exactly that prefix. -/
theorem c9_slice_boundary_precondition (out rest : List Nat) :
    ((byteSlice7 out).isSome = true ↔ (7 ≤ out.length ∧ isCharBoundaryAt out 7 = true))
    ∧ (out = asciiBytes "define(" ++ rest →
        (rest = [] ∨ ∃ b bs, rest = b :: bs ∧ isContinuationByte b = false) →
        byteSlice7 out = some rest) := by
  constructor
  · exact byteSlice7_isSome_iff out
  · rintro rfl hrest
    exact byteSlice7_of_define_prefixed rest hrest

/-- Claim C9 witness: the slice succeeds on a concrete `define(`-prefixed
output and removes the prefix. -/
theorem c9_witness : byteSlice7 (asciiBytes "define();") = some (asciiBytes ");") :=
  (c9_slice_boundary_precondition (asciiBytes "define();") (asciiBytes ");")).2
    (by decide) (Or.inr ⟨41, [59], by decide, by decide⟩)

/-- Claim C10: every invocation whose parse succeeds (and therefore reaches
emission) advances the load-key counter by exactly one fetch-and-increment,
whatever the host environment then does — a failed DOM injection still
consumes a key id. -/
theorem c10_key_consumed_before_injection (fe : Frontend) (env : HostEnv)
    (filename input : String) (c : Nat) (items : List ModuleItem)
    (hp : fe.parse (tsConfigOf filename) input = some items) :
    (transpileModel fe env filename input c).counter = (c + 1) % W64 := by
  unfold transpileModel
  rw [hp]
  rfl

/-- Claim C10 witness: with the window missing, the invocation fails with
`InvalidWindow` yet the counter has advanced. -/
theorem c10_witness :
    (transpileModel okFrontend noWindowEnv "a.ts" "x" 0).counter = (0 + 1) % W64
    ∧ (transpileModel okFrontend noWindowEnv "a.ts" "x" 0).result
        = some (Except.error TErr.InvalidWindow) :=
  ⟨c10_key_consumed_before_injection okFrontend noWindowEnv "a.ts" "x" 0 [] rfl, rfl⟩

end Twasm
